import Mathlib

/-!
Verification of the OpenSuperWhisper streaming client against its
natural-language specification.

The development shallowly embeds the behaviourally relevant parts of the
three Python sources (`super_whisper.py`, `super_whisper_mac.py`,
`super_whisper_windows.py`): the server-line parser, the line framer, the
send/stop/lifecycle logic of `RemoteTranscriber`, the capture loop of
`AudioRecorder`, and the `audioop.ratecv` resampling rate-conversion count.
Strings are modelled as `List Char`, byte streams as `List Nat`.
-/

set_option linter.unusedVariables false

/-! ### Python string primitives used by the line parser

`RemoteTranscriber.run` (super_whisper.py lines 81-86) parses each received
line with `line.strip().split(' ', 2)` and emits `parts[2]` when
`len(parts) == 3`.  We embed `str.strip` (default whitespace set, ASCII
part) and `str.split(' ', 2)` (split on the literal one-space separator,
at most two cuts, empty fields preserved). -/

/-- The ASCII characters Python's `str.strip()` removes by default. -/
def isPyWs (c : Char) : Bool :=
  c = ' ' || c = '\t' || c = '\n' || c = '\x0d' || c = '\x0b' || c = '\x0c'

/-- Python `str.strip()` on the character list. -/
def pyStrip (l : List Char) : List Char :=
  ((l.dropWhile isPyWs).reverse.dropWhile isPyWs).reverse

/-- Split at the first literal space character: returns the span before it
and, when a space exists, the remainder after it. -/
def splitAtSpace : List Char → List Char × Option (List Char)
  | [] => ([], none)
  | c :: cs =>
    if c = ' ' then ([], some cs)
    else
      let p := splitAtSpace cs
      (c :: p.1, p.2)

/-- Python `s.split(' ', 2)`: at most two cuts on the literal space
separator; consecutive spaces yield empty fields; the third part keeps
every remaining character including further spaces. -/
def pySplitSpace2 (l : List Char) : List (List Char) :=
  match splitAtSpace l with
  | (a, none) => [a]
  | (a, some r1) =>
    match splitAtSpace r1 with
    | (b, none) => [a, b]
    | (b, some r2) => [a, b, r2]

/-- The per-line parse of `RemoteTranscriber.run` (super_whisper.py 81-86):
`parts = line.strip().split(' ', 2); if len(parts) == 3: _, _, text = parts`.
Returns the three raw fields when the line parses, `none` otherwise.  The
function is total: a malformed line yields `none` and no error. -/
def parseLine3 (line : List Char) : Option (List Char × List Char × List Char) :=
  match pySplitSpace2 (pyStrip line) with
  | [a, b, c] => some (a, b, c)
  | _ => none

/-- The emitted transcript text (`text_ready.emit(text)`): the third field
of a well-formed line, nothing otherwise. -/
def parseLineText (line : List Char) : Option (List Char) :=
  match parseLine3 line with
  | some (_, _, c) => some c
  | none => none

/-- Split at the first whitespace character (any of the Python whitespace
set): the token before it and the remainder after it, when one exists. -/
def splitAtWs : List Char → List Char × Option (List Char)
  | [] => ([], none)
  | c :: cs =>
    if isPyWs c then ([], some cs)
    else
      let p := splitAtWs cs
      (c :: p.1, p.2)

/-- The spec's parsing condition, written from the spec's words for
comparison with the source: after trimming, the line "splits into exactly
3 whitespace-bounded fields with the split bounded to 3 parts", i.e. a
whitespace split (any whitespace separates fields, runs collapse) with at
most two cuts, the third part keeping the remainder. -/
def specWsSplit3 (l : List Char) : List (List Char) :=
  let l0 := pyStrip l
  match splitAtWs l0 with
  | (a, none) => [a]
  | (a, some r1) =>
    match splitAtWs (r1.dropWhile isPyWs) with
    | (b, none) => [a, b]
    | (b, some r2) => [a, b, r2.dropWhile isPyWs]

example : parseLine3 (("120 340 hello world").toList) =
    some (("120").toList, ("340").toList, ("hello world").toList) := by decide

example : parseLineText (("120 340").toList) = none := by decide

/-! ### Characterisation of the literal-space split -/

theorem splitAtSpace_of_not_mem (l : List Char) (h : ' ' ∉ l) :
    splitAtSpace l = (l, none) := by
  induction l with
  | nil => rfl
  | cons c cs ih =>
    have hc : ¬ c = ' ' := fun hc => h (hc ▸ List.mem_cons_self c cs)
    have hcs : ' ' ∉ cs := fun hm => h (List.mem_cons_of_mem c hm)
    simp [splitAtSpace, hc, ih hcs]

theorem splitAtSpace_snd_none (l : List Char) (h : (splitAtSpace l).2 = none) :
    ' ' ∉ l := by
  induction l with
  | nil => simp
  | cons c cs ih =>
    by_cases hc : c = ' '
    · simp [splitAtSpace, hc] at h
    · simp only [splitAtSpace, hc, if_false] at h
      intro hm
      rcases List.mem_cons.mp hm with h1 | h2
      · exact hc h1.symm
      · exact ih h h2

theorem splitAtSpace_snd_some (l r : List Char) (h : (splitAtSpace l).2 = some r) :
    l.count ' ' = r.count ' ' + 1 := by
  induction l generalizing r with
  | nil => simp [splitAtSpace] at h
  | cons c cs ih =>
    by_cases hc : c = ' '
    · simp only [splitAtSpace, hc, if_true] at h
      cases h
      simp [hc, List.count_cons]
    · simp only [splitAtSpace, hc, if_false] at h
      have := ih r h
      simp [List.count_cons, hc, this]

/-- A line produces a transcript event exactly when its stripped form
contains at least two literal space characters (so that `split(' ', 2)`
yields three parts). -/
theorem parseLineText_isSome_iff (l : List Char) :
    (parseLineText l).isSome = true ↔ 2 ≤ (pyStrip l).count ' ' := by
  unfold parseLineText parseLine3 pySplitSpace2
  rcases h1 : splitAtSpace (pyStrip l) with ⟨a, r1?⟩
  cases r1? with
  | none =>
    have hn : ' ' ∉ pyStrip l := splitAtSpace_snd_none _ (by rw [h1])
    have : (pyStrip l).count ' ' = 0 := List.count_eq_zero.mpr hn
    simp [h1, this]
  | some r1 =>
    have hc1 : (pyStrip l).count ' ' = r1.count ' ' + 1 :=
      splitAtSpace_snd_some _ _ (by rw [h1])
    rcases h2 : splitAtSpace r1 with ⟨b, r2?⟩
    cases r2? with
    | none =>
      have hn : ' ' ∉ r1 := splitAtSpace_snd_none _ (by rw [h2])
      have : r1.count ' ' = 0 := List.count_eq_zero.mpr hn
      simp [h1, h2, hc1, this]
    | some r2 =>
      have hc2 : r1.count ' ' = r2.count ' ' + 1 :=
        splitAtSpace_snd_some _ _ (by rw [h2])
      simp [h1, h2, hc1, hc2]

theorem dropWhile_eq_self_of_head (p : Char → Bool) (l : List Char)
    (h : ∀ x, l.head? = some x → p x = false) : l.dropWhile p = l := by
  cases l with
  | nil => rfl
  | cons c cs => simp [List.dropWhile_cons, h c rfl]

theorem pyStrip_eq_self (l : List Char)
    (h1 : ∀ x, l.head? = some x → isPyWs x = false)
    (h2 : ∀ x, l.getLast? = some x → isPyWs x = false) : pyStrip l = l := by
  unfold pyStrip
  rw [dropWhile_eq_self_of_head _ _ h1]
  rw [dropWhile_eq_self_of_head _ _ (fun x hx => h2 x (by rwa [← List.head?_reverse]))]
  exact List.reverse_reverse l

theorem getLast?_append_right (l c : List Char) (hc : c ≠ []) :
    (l ++ c).getLast? = c.getLast? := by
  have hy : c.getLast?.isSome := List.getLast?_isSome.mpr hc
  rcases ho : c.getLast? with _ | y
  · rw [ho] at hy
    simp at hy
  · rw [List.getLast?_append, ho]
    rfl

theorem splitAtSpace_append (a r : List Char) (ha : ∀ x ∈ a, ¬ x = ' ') :
    splitAtSpace (a ++ ' ' :: r) = (a, some r) := by
  induction a with
  | nil => simp [splitAtSpace]
  | cons c cs ih =>
    have hc : ¬ c = ' ' := ha c (List.mem_cons_self c cs)
    have hrec := ih (fun x hx => ha x (List.mem_cons_of_mem c hx))
    simp [splitAtSpace, hc, hrec]

/-! ### C1 / C10: claim theorems about the line parser -/

/-- C1 counterexample: the claim's emission condition ("exactly 3
whitespace-bounded fields after trimming, split bounded to 3 parts") is
not what the code tests.  On the line `"a\tb c"` the spec-side whitespace
split yields the 3 fields `a`, `b`, `c`, yet the code's
`strip().split(' ', 2)` yields only 2 parts (the tab is not a separator),
so no event is emitted: the claimed equivalence fails at this input. -/
theorem c1_counterexample_tab_separated :
    ¬ (((parseLineText (("a\tb c").toList)).isSome = true) ↔
        (specWsSplit3 (("a\tb c").toList)).length = 3) := by decide

/-- C1 (amended): an event is emitted iff the line, after stripping,
contains at least two literal space characters — i.e. `split(' ', 2)` on
the one-space separator (empty fields count) yields exactly 3 parts;
other whitespace such as tab does not separate fields.  The record
`"120 340 hello world"` parses to fields `120`, `340`, `hello world`
(the bounded split keeps internal spaces of the text), and a line with
fewer than two spaces yields no event — `parseLineText` is total, so no
error is raised either. -/
theorem c1_event_iff_two_literal_spaces :
    parseLine3 (("120 340 hello world").toList) =
      some (("120").toList, ("340").toList, ("hello world").toList) ∧
    (∀ l : List Char, (parseLineText l).isSome = true ↔ 2 ≤ (pyStrip l).count ' ') := by
  constructor
  · decide
  · exact parseLineText_isSome_iff

/-- C10: the first two fields of a well-formed 3-field line are never
parsed or validated as numbers — for arbitrary space-free, whitespace-free
nonempty tokens `a` and `b` (numeric or not) and any text `c` not ending
in whitespace, the line `a ++ " " ++ b ++ " " ++ c` produces an event
whose text is exactly `c`.  In particular `"foo bar hello"` emits
`"hello"`. -/
theorem c10_fields_not_validated (a b c : List Char)
    (ha0 : a ≠ []) (hc0 : c ≠ [])
    (ha : ∀ x ∈ a, isPyWs x = false) (hb : ∀ x ∈ b, isPyWs x = false)
    (hcl : ∀ x, c.getLast? = some x → isPyWs x = false) :
    parseLine3 (a ++ (' ' :: (b ++ (' ' :: c)))) = some (a, b, c) := by
  have hstrip : pyStrip (a ++ (' ' :: (b ++ (' ' :: c)))) =
      a ++ (' ' :: (b ++ (' ' :: c))) := by
    apply pyStrip_eq_self
    · intro x hx
      cases a with
      | nil => exact absurd rfl ha0
      | cons y ys =>
        simp only [List.cons_append, List.head?_cons, Option.some.injEq] at hx
        exact hx ▸ ha y (List.mem_cons_self y ys)
    · intro x hx
      apply hcl x
      have e1 : (' ' :: (b ++ (' ' :: c))) = [' '] ++ (b ++ ([' '] ++ c)) := by simp
      rw [e1, getLast?_append_right _ _ (by simp),
        getLast?_append_right _ _ (by simp),
        getLast?_append_right _ _ (by simp),
        getLast?_append_right _ _ hc0] at hx
      exact hx
  have hsa : ∀ x ∈ a, ¬ x = ' ' := by
    intro x hx hsp
    have := ha x hx
    rw [hsp] at this
    simp [isPyWs] at this
  have hsb : ∀ x ∈ b, ¬ x = ' ' := by
    intro x hx hsp
    have := hb x hx
    rw [hsp] at this
    simp [isPyWs] at this
  unfold parseLine3 pySplitSpace2
  rw [hstrip, splitAtSpace_append a _ hsa]
  simp [splitAtSpace_append b _ hsb]

/-- Witness for C10 at the concrete non-numeric line `"foo bar hello"`. -/
theorem c10_fields_not_validated_witness :
    parseLine3 ((("foo").toList) ++ (' ' :: ((("bar").toList) ++ (' ' :: (("hello").toList))))) =
      some (("foo").toList, ("bar").toList, ("hello").toList) :=
  c10_fields_not_validated (("foo").toList) (("bar").toList) (("hello").toList)
    (by decide) (by decide) (by decide) (by decide) (by decide)

/-! ### C2: LineFramer (spec-modelled)

Modelled from the spec: the framer is the `line_packet` module, which the
sources import (`import line_packet`) but which is not among the source
files; only its caller `RemoteTranscriber.run` is.  Spec section 4.2:
`feed(bytes)` appends to the LineBuffer and emits every complete byte span
up to (and excluding) a newline terminator, in receipt order, retaining
the trailing partial span.  Bytes are `Nat`; the terminator is byte 10. -/

/-- Prepend byte `b` to the first complete record, or to the buffer when
no complete record exists. -/
def consFirst (b : Nat) : List (List Nat) × List Nat → List (List Nat) × List Nat
  | ([], buf) => ([], b :: buf)
  | (r :: rs, buf) => ((b :: r) :: rs, buf)

/-- Modelled from the spec: split a byte sequence into its complete
newline-terminated records (terminator excluded) and the trailing
unterminated span. -/
def splitLines : List Nat → List (List Nat) × List Nat
  | [] => ([], [])
  | b :: rest =>
    if b = 10 then ([] :: (splitLines rest).1, (splitLines rest).2)
    else consFirst b (splitLines rest)

/-- Modelled from the spec: one `feed` call of the LineFramer — append the
read bytes to the LineBuffer, emit the complete records, keep the rest. -/
def lineFramerFeed (buf chunk : List Nat) : List (List Nat) × List Nat :=
  splitLines (buf ++ chunk)

/-- Feed a sequence of chunks one at a time starting from LineBuffer
`buf`: all emitted records in receipt order, and the final buffer. -/
def feedAll (buf : List Nat) : List (List Nat) → List (List Nat) × List Nat
  | [] => ([], buf)
  | c :: cs =>
    let p := lineFramerFeed buf c
    let q := feedAll p.2 cs
    (p.1 ++ q.1, q.2)

theorem splitLines_of_no_nl (l : List Nat) (h : (10 : Nat) ∉ l) :
    splitLines l = ([], l) := by
  induction l with
  | nil => rfl
  | cons b rest ih =>
    have hb : ¬ b = 10 := fun hb => h (hb ▸ List.mem_cons_self b rest)
    have hr : (10 : Nat) ∉ rest := fun hm => h (List.mem_cons_of_mem b hm)
    simp [splitLines, hb, ih hr, consFirst]

theorem splitLines_buf_no_nl (l : List Nat) : (10 : Nat) ∉ (splitLines l).2 := by
  induction l with
  | nil => simp [splitLines]
  | cons b rest ih =>
    by_cases hb : b = 10
    · simpa [splitLines, hb] using ih
    · rcases hA : splitLines rest with ⟨rs?, buf⟩
      rw [hA] at ih
      cases rs? with
      | nil =>
        simp only [splitLines, if_neg hb, hA, consFirst]
        simp only [List.mem_cons, not_or]
        exact ⟨fun he => hb he.symm, ih⟩
      | cons r rs => simpa [splitLines, hb, hA, consFirst] using ih

theorem splitLines_append (xs ys : List Nat) :
    splitLines (xs ++ ys) =
      ((splitLines xs).1 ++ (splitLines ((splitLines xs).2 ++ ys)).1,
        (splitLines ((splitLines xs).2 ++ ys)).2) := by
  induction xs with
  | nil => simp [splitLines]
  | cons b rest ih =>
    by_cases hb : b = 10
    · subst hb
      have h1 : splitLines (10 :: (rest ++ ys)) =
          ([] :: (splitLines (rest ++ ys)).1, (splitLines (rest ++ ys)).2) := by
        simp [splitLines]
      have h2 : splitLines (10 :: rest) =
          ([] :: (splitLines rest).1, (splitLines rest).2) := by
        simp [splitLines]
      rw [List.cons_append, h1, h2, ih]
      simp
    · have h1 : splitLines (b :: (rest ++ ys)) = consFirst b (splitLines (rest ++ ys)) := by
        simp [splitLines, hb]
      have h2 : splitLines (b :: rest) = consFirst b (splitLines rest) := by
        simp [splitLines, hb]
      rw [List.cons_append, h1, h2, ih]
      rcases hA : splitLines rest with ⟨rs?, buf⟩
      cases rs? with
      | nil =>
        have h3 : splitLines (b :: (buf ++ ys)) = consFirst b (splitLines (buf ++ ys)) := by
          simp [splitLines, hb]
        simp [consFirst, h3]
      | cons r rs => simp [consFirst]

theorem feedAll_eq_splitLines (cs : List (List Nat)) (buf : List Nat)
    (h : (10 : Nat) ∉ buf) : feedAll buf cs = splitLines (buf ++ cs.flatten) := by
  induction cs generalizing buf with
  | nil => simp [feedAll, splitLines_of_no_nl buf h]
  | cons c cs ih =>
    have hbuf2 := splitLines_buf_no_nl (buf ++ c)
    have hassoc : buf ++ (c ++ cs.flatten) = (buf ++ c) ++ cs.flatten := by simp
    simp only [feedAll, lineFramerFeed, ih _ hbuf2]
    rw [List.flatten_cons, hassoc, splitLines_append (buf ++ c) cs.flatten]

/-- C2: chunking invariance of the LineFramer.  Feeding any sequence of
chunks one at a time yields exactly the records (and final LineBuffer) of
feeding the whole concatenated stream in one call; and a feed whose
buffer and read contain no terminator emits nothing.  Records are thereby
emitted in receipt order and only once their terminating newline byte has
arrived. -/
theorem c2_lineframer_chunking_invariance :
    (∀ cs : List (List Nat), feedAll [] cs = splitLines cs.flatten) ∧
    (∀ buf c : List Nat, (10 : Nat) ∉ buf → (10 : Nat) ∉ c →
      (lineFramerFeed buf c).1 = []) := by
  constructor
  · intro cs
    simpa using feedAll_eq_splitLines cs [] (by simp)
  · intro buf c hb hc
    have : (10 : Nat) ∉ buf ++ c := by
      simp only [List.mem_append, not_or]
      exact ⟨hb, hc⟩
    simp [lineFramerFeed, splitLines_of_no_nl _ this]

/-- Witness for C2: the stream `"hi\nwo"` chunked as
`[104,105] / [10] / [119,111]` emits exactly the record `hi` after the
terminator arrives, matching the single-call split; and a terminator-free
feed emits nothing. -/
theorem c2_lineframer_chunking_invariance_witness :
    feedAll [] [[104, 105], [10], [119, 111]] =
      splitLines (([[104, 105], [10], [119, 111]] : List (List Nat)).flatten) ∧
    (lineFramerFeed [104] [105]).1 = [] :=
  ⟨c2_lineframer_chunking_invariance.1 [[104, 105], [10], [119, 111]],
    c2_lineframer_chunking_invariance.2 [104] [105] (by decide) (by decide)⟩

/-! ### Socket and transcriber model (`RemoteTranscriber`, super_whisper.py) -/

/-- State of the TCP socket object as used by the client: whether the
outbound half is still open and whether the socket has been closed. -/
structure Sock where
  wrOpen : Bool
  closed : Bool
deriving DecidableEq

/-- Outcome of the transport on one non-blocking `sock.send` attempt:
success, would-block, peer reset the connection, or another OS error. -/
inductive TransportCond
  | ok
  | wouldBlock
  | brokenPipe
  | osError
deriving DecidableEq

/-- Observable result of one `send_chunk` call. -/
inductive SendResult
  | sent
  | dropped
  | raisedAttributeError
deriving DecidableEq

/-- `RemoteTranscriber.send_chunk` (super_whisper.py 90-96, identically
super_whisper_mac.py 110-113): `try: self.sock.send(chunk) except
(BlockingIOError, BrokenPipeError, OSError): pass`.  When `self.sock` is
`None` (connect not yet completed, or failed), the attribute access
raises `AttributeError`, which the except clause does not catch; with a
socket, a transport error is swallowed and the frame dropped. -/
def send_chunk (sock : Option Sock) (t : TransportCond) : SendResult :=
  match sock with
  | none => SendResult.raisedAttributeError
  | some _ =>
    match t with
    | TransportCond.ok => SendResult.sent
    | _ => SendResult.dropped

/-- Observable result of one windows `send_chunk` call: the windows
variant never raises, but its error path does not return either. -/
inductive WinSendResult
  | sent
  | returnedNoSend
  | deadlock
deriving DecidableEq

/-- `RemoteTranscriber.send_chunk` of super_whisper_windows.py (96-106)
together with the `_cleanup_socket` it calls (108-120): the whole body
runs with `self.lock` held.  When `self.sock` is `None`, nothing is sent
and the call returns normally.  A caught transport error (the except
clause lists BlockingIOError, BrokenPipeError, OSError, ConnectionError)
prints a message and calls `_cleanup_socket`, whose first statement
`self.lock.lock()` re-acquires the same non-recursive QMutex the caller
still holds — the thread blocks forever there, before reaching the
socket shutdown, so the call never returns.  No path raises. -/
def send_chunkWin (sock : Option Sock) (t : TransportCond) : WinSendResult :=
  match sock with
  | none => WinSendResult.returnedNoSend
  | some _ =>
    match t with
    | TransportCond.ok => WinSendResult.sent
    | _ => WinSendResult.deadlock

/-- Number of transport write attempts a `send_chunk` call makes: at most
one — there is no loop and no queue in the code, so a dropped frame is
never retransmitted. -/
def send_chunkAttempts (sock : Option Sock) : Nat :=
  match sock with
  | none => 0
  | some _ => 1

/-! ### C4: send is best-effort — except before a socket exists -/

/-- C4 counterexample: with no socket yet (`self.sock is None` — the
connection attempt pending or failed), `send_chunk` raises an uncaught
`AttributeError` instead of silently dropping the frame, refuting "never
raises an exception to the caller for every state of the connection". -/
theorem c4_counterexample_none_socket_raises :
    send_chunk none TransportCond.wouldBlock = SendResult.raisedAttributeError ∧
    SendResult.raisedAttributeError ≠ SendResult.dropped := by decide

/-- C4 (amended): in super_whisper.py and super_whisper_mac.py, once a
socket object exists `send_chunk` never raises and never retries — a
single non-blocking attempt, and on would-block, broken pipe or any OS
error the frame is silently dropped; before a socket exists those two
variants raise an uncaught `AttributeError` (the counterexample).  The
windows variant never raises: with no socket it returns without sending;
but on a transport error its handler calls `_cleanup_socket`, which
re-locks the non-recursive QMutex still held by `send_chunk` and
deadlocks — that call never returns, blocking the capture-side path on a
network condition instead of dropping the frame silently. -/
theorem c4_send_best_effort_with_socket (sk : Sock) (t : TransportCond)
    (ht : t ≠ TransportCond.ok) :
    send_chunk (some sk) t = SendResult.dropped ∧
    send_chunk (some sk) t ≠ SendResult.raisedAttributeError ∧
    send_chunkAttempts (some sk) ≤ 1 ∧
    send_chunkWin none t = WinSendResult.returnedNoSend ∧
    send_chunkWin (some sk) TransportCond.ok = WinSendResult.sent ∧
    send_chunkWin (some sk) t = WinSendResult.deadlock := by
  refine ⟨?_, ?_, ?_, rfl, rfl, ?_⟩
  · cases t with
    | ok => exact absurd rfl ht
    | wouldBlock => rfl
    | brokenPipe => rfl
    | osError => rfl
  · cases t <;> simp [send_chunk]
  · simp [send_chunkAttempts]
  · cases t with
    | ok => exact absurd rfl ht
    | wouldBlock => rfl
    | brokenPipe => rfl
    | osError => rfl

/-- Witness for C4 (amended) at a live socket and a would-block condition. -/
theorem c4_send_best_effort_with_socket_witness :
    send_chunk (some { wrOpen := true, closed := false }) TransportCond.wouldBlock =
      SendResult.dropped ∧
    send_chunk (some { wrOpen := true, closed := false }) TransportCond.wouldBlock ≠
      SendResult.raisedAttributeError ∧
    send_chunkAttempts (some { wrOpen := true, closed := false }) ≤ 1 ∧
    send_chunkWin none TransportCond.wouldBlock = WinSendResult.returnedNoSend ∧
    send_chunkWin (some { wrOpen := true, closed := false }) TransportCond.ok =
      WinSendResult.sent ∧
    send_chunkWin (some { wrOpen := true, closed := false }) TransportCond.wouldBlock =
      WinSendResult.deadlock :=
  c4_send_best_effort_with_socket { wrOpen := true, closed := false }
    TransportCond.wouldBlock (by decide)

/-! ### C3: start with a failing connection (super_whisper.py) -/

/-- Outcome of the single `socket.create_connection` call. -/
inductive ConnectOutcome
  | success
  | failure
deriving DecidableEq

/-- State of the `RemoteTranscriber` thread after its `run` method has
performed the connection phase (super_whisper.py 70-77): the `_running`
flag, the socket (`None` until `create_connection` succeeds), whether the
thread is still executing, and how many connection attempts were made. -/
structure TranscriberState where
  running : Bool
  sock : Option Sock
  threadAlive : Bool
  connectAttempts : Nat
deriving DecidableEq

/-- The connection phase of `RemoteTranscriber.run`: exactly one
`create_connection` attempt.  On failure the exception is caught, the
message is printed, and `run` returns — the thread terminates, `self.sock`
stays `None`, and there is no retry.  On success the non-blocking socket
is stored and the poll loop runs on. -/
def transcriberAfterConnect : ConnectOutcome → TranscriberState
  | ConnectOutcome.failure =>
    { running := true, sock := none, threadAlive := false, connectAttempts := 1 }
  | ConnectOutcome.success =>
    { running := true, sock := some { wrOpen := true, closed := false },
      threadAlive := true, connectAttempts := 1 }

/-- Session-level state of `SuperWhisperWindow` (super_whisper.py): the
recorder thread, the transcriber reference, and whether any error was
reported to the caller through a callback (the code only prints to
stdout, which reaches no caller). -/
structure WindowState where
  recorderRunning : Bool
  transcriber : Option TranscriberState
  errorReported : Bool
deriving DecidableEq

/-- The spec's IDLE session state: no recorder thread running and no
transcriber held — no session threads or sockets alive. -/
def isIdle (w : WindowState) : Prop :=
  w.recorderRunning = false ∧ w.transcriber = none

instance (w : WindowState) : Decidable (isIdle w) := by
  unfold isIdle
  infer_instance

/-- `SuperWhisperWindow._start_recording` (super_whisper.py 254-269) with
the transcriber thread's connection phase of outcome `c` folded in: when
the recorder is not running, it constructs a `RemoteTranscriber`, wires
the signals, and starts both threads.  No branch inspects the connection
outcome: the recorder is started unconditionally and no callback reports
a failure. -/
def startRecording (w : WindowState) (c : ConnectOutcome) : WindowState :=
  if w.recorderRunning then w
  else
    { recorderRunning := true
      transcriber := some (transcriberAfterConnect c)
      errorReported := w.errorReported }

/-- The initial state before any session. -/
def idleWindow : WindowState :=
  { recorderRunning := false, transcriber := none, errorReported := false }

/-- C3 counterexample: starting from IDLE with a failing connection
(`startSession("unreachable", 1)`), the resulting state is not rolled
back to IDLE — the recorder thread keeps running (a leaked thread) — and
no ConnectionError is reported to the caller (the exception is only
printed inside the dead thread). -/
theorem c3_counterexample_failed_start_not_idle :
    ¬ (isIdle (startRecording idleWindow ConnectOutcome.failure) ∧
        (startRecording idleWindow ConnectOutcome.failure).errorReported = true) := by
  decide

/-- C3 (amended): on a failed initial connection the transcriber thread
makes exactly one connection attempt (no automatic retry), terminates,
and holds no socket; but the session is not rolled back: the recorder
keeps running, the dead transcriber stays referenced, the state is not
IDLE, and no error reaches the caller — the failure is only printed. -/
theorem c3_connect_failure_no_rollback (w : WindowState) (hw : isIdle w) :
    (startRecording w ConnectOutcome.failure).recorderRunning = true ∧
    (startRecording w ConnectOutcome.failure).transcriber =
      some { running := true, sock := none, threadAlive := false, connectAttempts := 1 } ∧
    (startRecording w ConnectOutcome.failure).errorReported = w.errorReported ∧
    ¬ isIdle (startRecording w ConnectOutcome.failure) := by
  rcases hw with ⟨h1, h2⟩
  simp [startRecording, h1, transcriberAfterConnect, isIdle]

/-- Witness for C3 (amended) from the initial IDLE state. -/
theorem c3_connect_failure_no_rollback_witness :
    (startRecording idleWindow ConnectOutcome.failure).recorderRunning = true ∧
    (startRecording idleWindow ConnectOutcome.failure).transcriber =
      some { running := true, sock := none, threadAlive := false, connectAttempts := 1 } ∧
    (startRecording idleWindow ConnectOutcome.failure).errorReported =
      idleWindow.errorReported ∧
    ¬ isIdle (startRecording idleWindow ConnectOutcome.failure) :=
  c3_connect_failure_no_rollback idleWindow (by decide)

/-! ### C5: the shutdown handshake of `RemoteTranscriber.stop` -/

/-- Socket operations of the shutdown handshake, in execution order. -/
inductive SockOp
  | shutdownWr
  | closeOp
deriving DecidableEq

/-- `socket.shutdown(socket.SHUT_WR)`: on a closed socket the call raises
`OSError`; otherwise it shuts down only the outbound half. -/
def sockShutdownWr (sk : Sock) : Except Unit Sock :=
  if sk.closed then Except.error () else Except.ok { sk with wrOpen := false }

/-- `socket.close()`: marks the socket closed; raises nothing. -/
def sockClose (sk : Sock) : Except Unit Sock :=
  Except.ok { sk with closed := true }

/-- The `try: self.sock.shutdown(socket.SHUT_WR); self.sock.close()
except Exception: pass` block of `RemoteTranscriber.stop`
(super_whisper.py 104-113): the two calls run in order; any error is
swallowed, keeping whatever state was reached.  Returns the resulting
socket and the trace of calls that completed. -/
def shutdownClose (sk : Sock) : Sock × List SockOp :=
  match sockShutdownWr sk with
  | Except.error _ => (sk, [])
  | Except.ok sk1 =>
    match sockClose sk1 with
    | Except.error _ => (sk1, [SockOp.shutdownWr])
    | Except.ok sk2 => (sk2, [SockOp.shutdownWr, SockOp.closeOp])

/-- `RemoteTranscriber.stop` (super_whisper.py 104-113): clear `_running`;
when a socket exists, run the swallowed shutdown handshake (`self.sock`
keeps referencing the now-closed socket object).  Returns the new thread
state and the trace of socket operations. -/
def transcriberStop (t : TranscriberState) : TranscriberState × List SockOp :=
  match t.sock with
  | none => ({ t with running := false }, [])
  | some sk =>
    let p := shutdownClose sk
    ({ t with running := false, sock := some p.1 }, p.2)

/-- C5: `stop` is idempotent on the session state; on an open (not yet
closed) connection the handshake shuts down the outbound half first and
only then closes the socket outright, ending with the socket closed; and
a shutdown error (second `stop` on the already-closed socket) is
swallowed, the teardown completing with the state unchanged. -/
theorem c5_stop_idempotent_halfclose_order (t : TranscriberState) (sk : Sock)
    (hsk : sk.closed = false) :
    (transcriberStop (transcriberStop t).1).1 = (transcriberStop t).1 ∧
    (shutdownClose sk).2 = [SockOp.shutdownWr, SockOp.closeOp] ∧
    (shutdownClose sk).1 = { wrOpen := false, closed := true } ∧
    (∀ skc : Sock, skc.closed = true → shutdownClose skc = (skc, [])) := by
  refine ⟨?_, ?_, ?_, ?_⟩
  · rcases t with ⟨r, sock?, al, ca⟩
    cases sock? with
    | none => rfl
    | some s =>
      rcases s with ⟨w, c⟩
      cases c <;> simp [transcriberStop, shutdownClose, sockShutdownWr, sockClose]
  · simp [shutdownClose, sockShutdownWr, sockClose, hsk]
  · simp [shutdownClose, sockShutdownWr, sockClose, hsk]
  · intro skc hc
    simp [shutdownClose, sockShutdownWr, hc]

/-- Witness for C5 at a live transcriber with an open socket. -/
theorem c5_stop_idempotent_halfclose_order_witness :
    (transcriberStop (transcriberStop (transcriberAfterConnect ConnectOutcome.success)).1).1 =
      (transcriberStop (transcriberAfterConnect ConnectOutcome.success)).1 ∧
    (shutdownClose { wrOpen := true, closed := false }).2 =
      [SockOp.shutdownWr, SockOp.closeOp] ∧
    (shutdownClose { wrOpen := true, closed := false }).1 =
      { wrOpen := false, closed := true } ∧
    (∀ skc : Sock, skc.closed = true → shutdownClose skc = (skc, [])) :=
  c5_stop_idempotent_halfclose_order (transcriberAfterConnect ConnectOutcome.success)
    { wrOpen := true, closed := false } (by decide)

/-! ### C6: stop/join semantics across the three variants -/

/-- The three platform variants of the client. -/
inductive Variant
  | main
  | mac
  | windows
deriving DecidableEq

/-- The timeout each variant's `AudioRecorder.stop` passes to
`QThread.wait`: super_whisper.py (56-58) calls `self.wait()` with no
timeout; super_whisper_mac.py (84-86) and super_whisper_windows.py
(46-49) call `self.wait(100)`. -/
def stopWaitTimeout : Variant → Option Nat
  | Variant.main => none
  | Variant.mac => some 100
  | Variant.windows => some 100

/-- Qt `QThread.wait` semantics: with no timeout it returns only once the
thread has terminated; with timeout `t` milliseconds it returns with the
thread terminated iff the thread finishes within `t` ms.  `remaining` is
the time the capture loop still needs after the stop flag is cleared
(bounded by one blocking device read plus the emits of the final
iteration). -/
def waitReturnsTerminated (timeout : Option Nat) (remaining : Nat) : Bool :=
  match timeout with
  | none => true
  | some t => remaining ≤ t

/-- Whether a variant's `AudioRecorder.stop` returns only after the
capture thread has fully terminated, when the final iteration still
needs `remaining` ms. -/
def stopJoins (v : Variant) (remaining : Nat) : Bool :=
  waitReturnsTerminated (stopWaitTimeout v) remaining

/-- The `while self._running:` loops of `AudioRecorder.run` and
`RemoteTranscriber.run` re-read the flag before every iteration; given the
flag value observed at each successive check, the number of body
iterations executed is the number of leading `true` observations. -/
def loopIterations : List Bool → Nat
  | [] => 0
  | b :: bs => if b then loopIterations bs + 1 else 0

/-- C6 counterexample: in the windows variant (identically mac),
`stop` waits at most 100 ms; if the final blocking device read needs
150 ms the call returns while the capture thread is still running,
refuting "stop returns only after both loops have fully terminated". -/
theorem c6_counterexample_bounded_wait :
    stopJoins Variant.windows 150 = false := by decide

/-- C6 (amended): both loops observe the cleared stop flag within one
iteration — after the first `false` observation no further iteration
runs — and super_whisper.py's `stop` (plain `wait()`) returns only after
the thread has terminated; the mac and windows variants wait at most
100 ms, so they return after termination only when the final iteration
finishes within 100 ms, and may otherwise return with the thread still
running. -/
theorem c6_stop_flag_observed_join_main_only :
    (∀ pre post : List Bool, loopIterations (pre ++ false :: post) ≤ pre.length) ∧
    (∀ r : Nat, stopJoins Variant.main r = true) ∧
    (∀ (v : Variant) (r : Nat), r ≤ 100 → stopJoins v r = true) := by
  refine ⟨?_, ?_, ?_⟩
  · intro pre post
    induction pre with
    | nil => simp [loopIterations]
    | cons b bs ih =>
      cases b with
      | false => simp [loopIterations]
      | true =>
        simp only [List.cons_append, loopIterations, if_true, List.length_cons]
        exact Nat.succ_le_succ ih
  · intro r
    rfl
  · intro v r hr
    cases v <;> simp [stopJoins, waitReturnsTerminated, stopWaitTimeout, hr]

/-- Witness for C6 (amended): a loop that stops after two iterations, the
unbounded join, and a 40 ms final iteration under the 100 ms bound. -/
theorem c6_stop_flag_observed_join_main_only_witness :
    loopIterations ([true, true] ++ false :: [true]) ≤ 2 ∧
    stopJoins Variant.main 500 = true ∧
    stopJoins Variant.mac 40 = true :=
  ⟨c6_stop_flag_observed_join_main_only.1 [true, true] [true],
    c6_stop_flag_observed_join_main_only.2.1 500,
    c6_stop_flag_observed_join_main_only.2.2 Variant.mac 40 (by decide)⟩

/-! ### C8: device errors in the capture loop (super_whisper.py `AudioRecorder.run`) -/

/-- Outcome of one `stream.read(CHUNK, exception_on_overflow=False)`. -/
inductive ReadOutcome
  | ok (data : Nat)
  | readError
deriving DecidableEq

/-- Observable result of `AudioRecorder.run`: the frames emitted on
`audio_chunk` and how many device reads were performed. -/
structure RunResult where
  emitted : List Nat
  readCalls : Nat
deriving DecidableEq

/-- The capture loop of `AudioRecorder.run` (super_whisper.py 44-52) over
the schedule of read outcomes of the iterations until stop: a successful
read emits the frame; a failed read hits `except Exception: continue` —
the error is swallowed and the loop proceeds to the next read. -/
def captureLoop : List ReadOutcome → RunResult
  | [] => { emitted := [], readCalls := 0 }
  | ReadOutcome.ok d :: rest =>
    let r := captureLoop rest
    { emitted := d :: r.emitted, readCalls := r.readCalls + 1 }
  | ReadOutcome.readError :: rest =>
    let r := captureLoop rest
    { emitted := r.emitted, readCalls := r.readCalls + 1 }

/-- `AudioRecorder.run` (super_whisper.py 32-49): a single attempt to
open the device; on failure the error is printed and `run` returns before
the loop — no read happens and the open is never retried. -/
def audioRecorderRun (openOk : Bool) (reads : List ReadOutcome) : RunResult :=
  if openOk then captureLoop reads
  else { emitted := [], readCalls := 0 }

/-- C8 counterexample: a failed read is not fatal — after a read error
the loop performs another read and emits its frame, so the session
continues (the claim says an unrecoverable read failure ends the session
with no retry of the read). -/
theorem c8_counterexample_read_error_retried :
    captureLoop [ReadOutcome.readError, ReadOutcome.ok 5] =
      { emitted := [5], readCalls := 2 } ∧
    ({ emitted := [5], readCalls := 2 } : RunResult).readCalls ≠ 1 := by decide

/-- C8 (amended): a device-open failure is fatal to the recording
session — `run` returns at once, performing no read and making no second
open attempt (the open is attempted exactly once by construction) — and
it is surfaced only as a printed message; a failed read, however, is not
fatal: the exception is swallowed and the loop goes on to the next read,
of which the failed read contributes no frame. -/
theorem c8_open_fatal_read_error_continues :
    (∀ reads : List ReadOutcome,
      audioRecorderRun false reads = { emitted := [], readCalls := 0 }) ∧
    (∀ rest : List ReadOutcome,
      (captureLoop (ReadOutcome.readError :: rest)).emitted =
        (captureLoop rest).emitted ∧
      (captureLoop (ReadOutcome.readError :: rest)).readCalls =
        (captureLoop rest).readCalls + 1) := by
  constructor
  · intro reads
    rfl
  · intro rest
    constructor <;> rfl

/-! ### C9: mutual exclusion of send and poll on the connection -/

/-- Events of one code path touching the shared connection handle:
acquiring/releasing the session mutex and accessing the socket. -/
inductive AccessEv
  | lockAcq
  | lockRel
  | sockAccess
deriving DecidableEq

/-- Whether every socket access in the trace happens while the mutex is
held (lock depth positive). -/
def allAccessesLocked : Nat → List AccessEv → Bool
  | _, [] => true
  | d, AccessEv.lockAcq :: r => allAccessesLocked (d + 1) r
  | d, AccessEv.lockRel :: r => allAccessesLocked (d - 1) r
  | d, AccessEv.sockAccess :: r => decide (0 < d) && allAccessesLocked d r

/-- Connection events of one `send_chunk` call in super_whisper.py
(90-96) and super_whisper_mac.py (110-113): `self.sock.send(chunk)` with
no lock anywhere in the class. -/
def sendTraceMain : List AccessEv := [AccessEv.sockAccess]

/-- Connection events of one poll iteration of `RemoteTranscriber.run` in
super_whisper.py (78-88): `line_packet.receive_lines(self.sock)` with no
lock. -/
def pollTraceMain : List AccessEv := [AccessEv.sockAccess]

/-- Connection events of one `send_chunk` call in
super_whisper_windows.py (96-106): `self.lock.lock()`, the guarded
`self.sock.send(chunk)`, and `self.lock.unlock()` in the `finally`. -/
def sendTraceWin : List AccessEv :=
  [AccessEv.lockAcq, AccessEv.sockAccess, AccessEv.lockRel]

/-- Connection events of one poll iteration of `RemoteTranscriber.run`
in super_whisper_windows.py (73-89): the read of `self.sock` happens
between `self.lock.lock()` and `self.lock.unlock()`. -/
def pollTraceWin : List AccessEv :=
  [AccessEv.lockAcq, AccessEv.sockAccess, AccessEv.lockRel]

/-- C9 counterexample: in super_whisper.py (identically mac) the send
path touches the connection with no critical section at all — its socket
access occurs at lock depth 0 — so send and poll are not mutually
exclusive in every session, refuting the claim for those variants. -/
theorem c9_counterexample_main_unlocked :
    allAccessesLocked 0 sendTraceMain = false ∧
    allAccessesLocked 0 pollTraceMain = false := by decide

/-- C9 (amended): only the windows variant guards the connection — there
both the send path and the poll path perform every socket access inside
the critical section of the one shared per-session mutex; the
super_whisper.py and mac variants access the socket with no lock. -/
theorem c9_only_windows_locks :
    allAccessesLocked 0 sendTraceWin = true ∧
    allAccessesLocked 0 pollTraceWin = true ∧
    allAccessesLocked 0 sendTraceMain = false ∧
    allAccessesLocked 0 pollTraceMain = false := by decide

/-! ### C7: device-rate fallback and `audioop.ratecv` resampling
(super_whisper_mac.py) -/

/-- The fixed target sample rate: the server expects 16 kHz. -/
def TARGET_RATE : Nat := 16000

/-- The fixed frame size in samples at the target rate. -/
def CHUNK : Nat := 1024

/-- Configuration of the opened input stream. -/
structure StreamCfg where
  rate : Nat
  framesPerBuffer : Nat
  needRs : Bool
deriving DecidableEq

/-- `AudioRecorder._open_stream` (super_whisper_mac.py 45-57): try the
16 kHz target rate; on an open failure, open at the device's native rate
with buffer `int(CHUNK * rate / TARGET_RATE)` and flag resampling iff the
native rate differs from the target. -/
def openStream (targetOk : Bool) (nativeRate : Nat) : StreamCfg :=
  if targetOk then
    { rate := TARGET_RATE, framesPerBuffer := CHUNK, needRs := false }
  else
    { rate := nativeRate
      framesPerBuffer := CHUNK * nativeRate / TARGET_RATE
      needRs := nativeRate != TARGET_RATE }

/-- The output-counting loop of CPython's `audioop.ratecv` with the two
rates already reduced by their gcd: each input frame adds `outR` to the
accumulator; while the accumulator is nonnegative, one interpolated
output frame is produced per `inR` subtracted.  Returns the number of
output frames produced for `n` input frames starting from accumulator
`d`. -/
def ratecvGo (inR outR : Int) : Nat → Int → Nat
  | 0, _ => 0
  | n + 1, d =>
    let d1 := d + outR
    if 0 ≤ d1 then
      let e := (d1 / inR).toNat + 1
      e + ratecvGo inR outR n (d1 - e * inR)
    else ratecvGo inR outR n d1

/-- Number of output samples `audioop.ratecv(frag, 2, 1, inrate, outrate,
None)` produces for `n` input samples on a fresh call — the code passes
`None` as the converter state on every call (super_whisper_mac.py 74-76):
the rates are reduced by their gcd and the accumulator starts at the
reduced `-outrate`. -/
def ratecvCount (n inrate outrate : Nat) : Nat :=
  let g := Nat.gcd inrate outrate
  ratecvGo ((inrate / g : Nat) : Int) ((outrate / g : Nat) : Int) n
    (-((outrate / g : Nat) : Int))

/-- A PCM frame tagged with its sample rate. -/
structure Frame where
  rate : Nat
  samples : Nat
deriving DecidableEq

/-- `audioop.ratecv` applied to a whole frame with fresh state. -/
def ratecvFrame (f : Frame) (target : Nat) : Frame :=
  { rate := target, samples := ratecvCount f.samples f.rate target }

/-- A frame as captured from the device opened with `cfg`. -/
def capturedFrame (cfg : StreamCfg) (s : Nat) : Frame :=
  { rate := cfg.rate, samples := s }

/-- The frame emission of `AudioRecorder.run` (super_whisper_mac.py
67-79): when the resample flag is set, the captured frame passes through
`audioop.ratecv(raw, 2, 1, self._rate, TARGET_RATE, None)` before
`audio_chunk.emit`. -/
def emittedFrame (cfg : StreamCfg) (captured : Frame) : Frame :=
  if cfg.needRs then ratecvFrame captured TARGET_RATE else captured

/-- Invariant of the `ratecv` counting loop: starting in the window
`[-inR, 0)`, the accumulator stays in that window and the produced output
count satisfies `count * inR = d + n * outR - dFinal`. -/
theorem ratecvGo_inv (inR outR : Int) (hin : 0 < inR) (hout : 0 ≤ outR) :
    ∀ (n : Nat) (d : Int), -inR ≤ d → d < 0 →
      ∃ d2 : Int, -inR ≤ d2 ∧ d2 < 0 ∧
        (ratecvGo inR outR n d : Int) * inR = d + n * outR - d2 := by
  intro n
  induction n with
  | zero =>
    intro d h1 h2
    refine ⟨d, h1, h2, ?_⟩
    simp [ratecvGo]
  | succ n ih =>
    intro d h1 h2
    by_cases hpos : 0 ≤ d + outR
    · have hdiv : 0 ≤ (d + outR) / inR := Int.ediv_nonneg hpos (le_of_lt hin)
      have htn : (((d + outR) / inR).toNat : Int) = (d + outR) / inR :=
        Int.toNat_of_nonneg hdiv
      have key := Int.ediv_add_emod (d + outR) inR
      have hr1 : 0 ≤ (d + outR) % inR := Int.emod_nonneg _ (ne_of_gt hin)
      have hr2 : (d + outR) % inR < inR := Int.emod_lt_of_pos _ hin
      have hunfold : ratecvGo inR outR (n + 1) d =
          (((d + outR) / inR).toNat + 1) +
            ratecvGo inR outR n
              (d + outR - ((((d + outR) / inR).toNat + 1 : Nat) : Int) * inR) := by
        simp only [ratecvGo]
        rw [if_pos hpos]
      have hnewd : d + outR - ((((d + outR) / inR).toNat + 1 : Nat) : Int) * inR
          = (d + outR) % inR - inR := by
        push_cast [htn]
        linear_combination -key
      obtain ⟨d2, hb1, hb2, heq⟩ :=
        ih (d + outR - ((((d + outR) / inR).toNat + 1 : Nat) : Int) * inR)
          (by rw [hnewd]; omega) (by rw [hnewd]; omega)
      refine ⟨d2, hb1, hb2, ?_⟩
      rw [hunfold]
      push_cast [htn] at heq ⊢
      linear_combination heq
    · push_neg at hpos
      have hunfold : ratecvGo inR outR (n + 1) d =
          ratecvGo inR outR n (d + outR) := by
        simp only [ratecvGo]
        rw [if_neg (by omega)]
      obtain ⟨d2, hb1, hb2, heq⟩ := ih (d + outR) (by omega) hpos
      refine ⟨d2, hb1, hb2, ?_⟩
      rw [hunfold]
      push_cast at heq ⊢
      linear_combination heq

/-- `ratecvCount` at the concrete 48 kHz → 16 kHz rates reduces to the
gcd-reduced loop with `inR = 3`, `outR = 1`. -/
theorem ratecvCount_48000_16000 (n : Nat) :
    ratecvCount n 48000 16000 = ratecvGo 3 1 n (-1) := by
  have hg : Nat.gcd 48000 16000 = 16000 := by norm_num
  simp only [ratecvCount, hg]
  norm_num

/-- C7: when the device refuses the 16 kHz target it is opened at its
native rate (e.g. 48 kHz, with the proportional 3072-sample buffer) with
the resample flag set; `ratecv` output counts are proportional with at
most one extra sample over integer truncation (`n*16000/48000 ≤ count ≤
n*16000/48000 + 1`); a 1024-sample frame at 48 kHz yields exactly 342 ≈
1024·16000/48000 samples; and every emitted frame carries the target
rate, whichever branch the open took. -/
theorem c7_native_rate_resampled_to_target :
    openStream false 48000 =
      { rate := 48000, framesPerBuffer := 3072, needRs := true } ∧
    ratecvCount 1024 48000 16000 = 342 ∧
    (∀ n : Nat, n * 16000 / 48000 ≤ ratecvCount n 48000 16000 ∧
      ratecvCount n 48000 16000 ≤ n * 16000 / 48000 + 1) ∧
    (∀ (targetOk : Bool) (native s : Nat),
      (emittedFrame (openStream targetOk native)
        (capturedFrame (openStream targetOk native) s)).rate = TARGET_RATE) := by
  refine ⟨?_, ?_, ?_, ?_⟩
  · simp [openStream, TARGET_RATE, CHUNK]
  · rw [ratecvCount_48000_16000]
    obtain ⟨d2, h1, h2, heq⟩ :=
      ratecvGo_inv 3 1 (by norm_num) (by norm_num) 1024 (-1) (by norm_num) (by norm_num)
    omega
  · intro n
    rw [ratecvCount_48000_16000]
    obtain ⟨d2, h1, h2, heq⟩ :=
      ratecvGo_inv 3 1 (by norm_num) (by norm_num) n (-1) (by norm_num) (by norm_num)
    omega
  · intro targetOk native s
    cases targetOk with
    | true => simp [openStream, emittedFrame, capturedFrame, TARGET_RATE]
    | false =>
      by_cases hn : native = TARGET_RATE
      · simp [openStream, emittedFrame, capturedFrame, hn]
      · simp [openStream, emittedFrame, capturedFrame, ratecvFrame, hn]
